import Mathlib

/-!
Verification of the windowed state-aggregation engine of the MQTT bridge
server (files mqtt_bridge_server.py and ros_data.py).  Python values are
shallowly embedded as the inductive type JVal (numbers as exact rationals,
with a separate constructor for the floating-point not-a-number value);
Python dicts are association lists with unique keys; fallible operations
are modelled with Option.
-/

/-- A JSON-like dynamic value, the universe of Python values handled by the
bridge.  num carries an exact rational (Python int and float are conflated;
overflow and rounding of IEEE floats are not modelled); nan is the
floating-point not-a-number value. -/
inductive JVal where
  | null : JVal
  | bool : Bool → JVal
  | num : ℚ → JVal
  | nan : JVal
  | str : String → JVal
  | list : List JVal → JVal
  | dict : List (String × JVal) → JVal

mutual

/-- Structural (syntactic) equality on embedded values, used to build the
DecidableEq instance. -/
def jeq : JVal → JVal → Bool
  | .null, .null => true
  | .bool a, .bool b => a == b
  | .num a, .num b => a == b
  | .nan, .nan => true
  | .str a, .str b => a == b
  | .list a, .list b => jeqL a b
  | .dict a, .dict b => jeqD a b
  | _, _ => false

/-- Structural equality on lists of embedded values. -/
def jeqL : List JVal → List JVal → Bool
  | [], [] => true
  | x :: xs, y :: ys => jeq x y && jeqL xs ys
  | _, _ => false

/-- Structural equality on association lists of embedded values. -/
def jeqD : List (String × JVal) → List (String × JVal) → Bool
  | [], [] => true
  | (k1, v1) :: xs, (k2, v2) :: ys => k1 == k2 && jeq v1 v2 && jeqD xs ys
  | _, _ => false

end

/-- Python dicts are modelled as association lists with unique keys, in
insertion order. -/
abbrev Dict := List (String × JVal)

/-- data.get(k): the value stored at key k, or None when the key is absent
(a stored None is indistinguishable from an absent key through get). -/
def dictGet (d : Dict) (k : String) : JVal :=
  match d.find? (fun p => p.1 == k) with
  | some p => p.2
  | none => JVal.null

/-- data.get(k, dflt): the value stored at key k, or dflt when the key is
absent (a stored None is returned as-is, not replaced by dflt). -/
def dictGetD (d : Dict) (k : String) (dflt : JVal) : JVal :=
  match d.find? (fun p => p.1 == k) with
  | some p => p.2
  | none => dflt

/-- k in d: key membership. -/
def hasKey (d : Dict) (k : String) : Bool :=
  d.any (fun p => p.1 == k)

/-- d[k] = v: replace the value of an existing key in place (insertion
order kept), or append a new key at the end. -/
def dictSet (d : Dict) (k : String) (v : JVal) : Dict :=
  if hasKey d k then d.map (fun p => if p.1 == k then (k, v) else p)
  else d ++ [(k, v)]

/-- ex.update(d): write every key of d into ex in order. -/
def dictUpdate (ex : Dict) (d : Dict) : Dict :=
  d.foldl (fun acc kv => dictSet acc kv.1 kv.2) ex

mutual

/-- Python == on embedded values.  Dict comparison is order-insensitive
(same keys, equal value per key), as in Python.  NaN comparison is
modelled as reflexive, standing for the CPython identity shortcut on a
shared NaN object; distinct NaN objects are not distinguished. -/
def pyEq : JVal → JVal → Bool
  | .null, .null => true
  | .bool a, .bool b => a == b
  | .bool a, .num b => (if a then (1 : ℚ) else 0) == b
  | .num a, .bool b => a == (if b then (1 : ℚ) else 0)
  | .num a, .num b => a == b
  | .nan, .nan => true
  | .str a, .str b => a == b
  | .list a, .list b => a.length == b.length && pyEqL a b
  | .dict a, .dict b => a.length == b.length && pyEqD a b
  | _, _ => false

/-- Python == on lists, element-wise. -/
def pyEqL : List JVal → List JVal → Bool
  | [], _ => true
  | _, [] => true
  | x :: xs, y :: ys => pyEq x y && pyEqL xs ys

/-- Python ==: every entry of the first dict is matched by key (keys are
unique in real dicts) in the second with an equal value. -/
def pyEqD : List (String × JVal) → List (String × JVal) → Bool
  | [], _ => true
  | kv :: rest, b =>
      (match b.find? (fun kw => kw.1 == kv.1) with
       | some kw => pyEq kv.2 kw.2
       | none => false) && pyEqD rest b

end

/-- x in l: Python list membership, comparing with ==. -/
def pyMem (x : JVal) (l : List JVal) : Bool :=
  l.any (fun e => pyEq e x)

/-- Python truthiness: None, False, 0, empty string / list / dict are
falsy; NaN is truthy. -/
def jFalsy : JVal → Bool
  | .null => true
  | .bool b => !b
  | .num q => q == 0
  | .nan => false
  | .str s => s.isEmpty
  | .list l => l.isEmpty
  | .dict d => d.isEmpty

/-- manage_data (mqtt_bridge_server.py, lines 156-162): append a polled
sample to the accumulator unless it is None, a float NaN, or already
present (Python membership). -/
def manage_data (sample : JVal) (samples : List JVal) : List JVal :=
  match sample with
  | .null => samples
  | .nan => samples
  | v => if pyMem v samples then samples else samples ++ [v]

/-- Scalar values: everything except lists and dicts. -/
def isScalar : JVal → Bool
  | .list _ => false
  | .dict _ => false
  | _ => true

/-- The non-None id values of the dict entries of the accumulated canopy
sample list (mqtt_bridge_server.py line 191, the existing_ids set,
modelled as a list whose membership is Python ==). -/
def sampleIds (samples : List JVal) : List JVal :=
  samples.filterMap fun p =>
    match p with
    | .dict d =>
        match dictGet d "id" with
        | .null => none
        | v => some v
    | _ => none

/-- mqtt_bridge_server.py lines 199-203: update the first dict entry whose
id equals pid with the newest fields (dict.update), leaving the rest
untouched. -/
def updateById (pid : JVal) (plant : Dict) : List JVal → List JVal
  | [] => []
  | x :: xs =>
    match x with
    | .dict ex =>
        if pyEq (dictGet ex "id") pid then .dict (dictUpdate ex plant) :: xs
        else .dict ex :: updateById pid plant xs
    | other => other :: updateById pid plant xs

/-- mqtt_bridge_server.py lines 192-214: route one entry of t_plants into
the accumulated canopy sample list.  A dict entry with a known id updates
the existing record in place; a dict with a fresh id is appended (and its
id recorded); a dict without id, or a non-dict entry, is appended only if
not already present by Python equality; None entries are skipped. -/
def flattenStep (acc : List JVal × List JVal) (plant : JVal) :
    List JVal × List JVal :=
  match plant with
  | .null => acc
  | .dict d =>
      match dictGet d "id" with
      | .null => if pyMem (.dict d) acc.1 then acc else (acc.1 ++ [.dict d], acc.2)
      | pid =>
          if pyMem pid acc.2 then (updateById pid d acc.1, acc.2)
          else (acc.1 ++ [.dict d], acc.2 ++ [pid])
  | p => if pyMem p acc.1 then acc else (acc.1 ++ [p], acc.2)

/-- mqtt_bridge_server.py lines 188-214: merge one t_plants list into the
accumulated canopy sample list (deduplicate/update by id). -/
def flattenPlants (samples : List JVal) (plants : List JVal) : List JVal :=
  (plants.foldl flattenStep (samples, sampleIds samples)).1

/-- needle begins haystack (character-wise). -/
def isPrefixB : List Char → List Char → Bool
  | [], _ => true
  | _ :: _, [] => false
  | c :: cs, d :: ds => c == d && isPrefixB cs ds

/-- Python substring containment: needle in haystack. -/
def containsSub : List Char → List Char → Bool
  | hay, needle =>
    match hay with
    | [] => needle.isEmpty
    | _ :: t => isPrefixB needle hay || containsSub t needle

/-- Python: pat in s (substring test on strings). -/
def strContains (s pat : String) : Bool :=
  containsSub s.toList pat.toList

/-- Python str.strip(): drop leading and trailing whitespace. -/
def stripChars (cs : List Char) : List Char :=
  ((cs.dropWhile Char.isWhitespace).reverse.dropWhile Char.isWhitespace).reverse

/-- Python str.lower() (ASCII letters; no other cased characters occur in
the tags and cardinal names the code compares). -/
def toLowerList (cs : List Char) : List Char :=
  cs.map Char.toLower

/-- One step of Python str.title(): a letter following a non-letter is
uppercased, a letter following a letter is lowercased. -/
def pyTitleGo : Bool → List Char → List Char
  | _, [] => []
  | prevAlpha, c :: cs =>
      if c.isAlpha then
        (if prevAlpha then c.toLower else c.toUpper) :: pyTitleGo true cs
      else c :: pyTitleGo false cs

/-- Python str.title(). -/
def pyTitle (cs : List Char) : List Char :=
  pyTitleGo false cs

/-- Python str.replace for a two-character pattern (the only patterns the
source replaces are -> and to): replace every non-overlapping occurrence
left to right. -/
def replace2 (a b : Char) (rep : List Char) : List Char → List Char
  | [] => []
  | [c] => [c]
  | c :: d :: rest =>
      if c = a ∧ d = b then rep ++ replace2 a b rep rest
      else c :: replace2 a b rep (d :: rest)

/-- Split on a separator character (used for the comma split of
re.split followed by per-part strip, which is equivalent to splitting on
the bare comma and stripping each part). -/
def splitOnChar (sep : Char) : List Char → List (List Char)
  | [] => [[]]
  | c :: cs =>
      if c == sep then [] :: splitOnChar sep cs
      else
        match splitOnChar sep cs with
        | h :: t => (c :: h) :: t
        | [] => [[c]]

/-- Python s.split(sep, 1): split at the first occurrence only (callers
guarantee the separator occurs). -/
def splitFirst (sep : Char) : List Char → List Char × List Char
  | [] => ([], [])
  | c :: cs =>
      if c == sep then ([], cs)
      else
        let p := splitFirst sep cs
        (c :: p.1, p.2)

/-- Numeric value of a decimal digit character. -/
def charDigit (c : Char) : ℕ := c.toNat - 48

/-- Decimal digit character of a value below ten. -/
def digitChar (d : ℕ) : Char := Char.ofNat (48 + d)

/-- Fold a big-endian digit string onto an accumulator. -/
def parseNatAcc (a : ℕ) (cs : List Char) : ℕ :=
  cs.foldl (fun x c => x * 10 + charDigit c) a

/-- Value of a big-endian decimal digit string. -/
def parseNatChars (cs : List Char) : ℕ :=
  parseNatAcc 0 cs

/-- Python float() on a plain decimal literal: optional sign, then one of
D, D.F, .F, D. with at least one digit; the whole string must be
consumed.  Exponent, infinity, nan and underscore forms accepted by
Python do not occur in the values the claims are about and are modelled
as failures. -/
def parseDecCore (cs : List Char) : Option ℚ :=
  let neg : Bool :=
    match cs with
    | c :: _ => c == '-'
    | [] => false
  let rest : List Char :=
    match cs with
    | c :: r => if c == '-' || c == '+' then r else c :: r
    | [] => []
  let d1 := rest.takeWhile Char.isDigit
  let r1 := rest.dropWhile Char.isDigit
  let val : Option ℚ :=
    match r1 with
    | [] => if d1.isEmpty then none else some (parseNatChars d1 : ℚ)
    | '.' :: r2 =>
        let d2 := r2.takeWhile Char.isDigit
        let r3 := r2.dropWhile Char.isDigit
        if !r3.isEmpty then none
        else if d1.isEmpty && d2.isEmpty then none
        else some ((parseNatChars d1 : ℚ) + (parseNatChars d2 : ℚ) / 10 ^ d2.length)
    | _ => none
  val.map (fun v => if neg then -v else v)

/-- The regular expression ([-+]?[0-9]*\.?[0-9]+) matched at the start of
the input, with its backtracking semantics: an optional sign, greedy
leading digits, an optional dot kept only when digits follow it.  Returns
the matched text. -/
def matchFloatAt (cs : List Char) : Option (List Char) :=
  let sr : List Char × List Char :=
    match cs with
    | c :: r => if c == '-' || c == '+' then ([c], r) else ([], cs)
    | [] => ([], [])
  let d1 := sr.2.takeWhile Char.isDigit
  let r1 := sr.2.dropWhile Char.isDigit
  match r1 with
  | '.' :: r2 =>
      let d2 := r2.takeWhile Char.isDigit
      if !d2.isEmpty then some (sr.1 ++ d1 ++ '.' :: d2)
      else if !d1.isEmpty then some (sr.1 ++ d1) else none
  | _ => if !d1.isEmpty then some (sr.1 ++ d1) else none

/-- re.search of ([-+]?[0-9]*\.?[0-9]+): the leftmost match. -/
def extractFirstFloat : List Char → Option (List Char)
  | [] => none
  | c :: rest =>
      match matchFloatAt (c :: rest) with
      | some m => some m
      | none => extractFirstFloat rest

/-- Big-endian decimal digit string of a natural number (empty for 0; the
caller pads). -/
def natChars (n : ℕ) : List Char :=
  ((Nat.digits 10 n).map digitChar).reverse

/-- The least exponent k with den dividing 10 ^ k, searched below den + 1
(enough for every denominator that divides a power of ten). -/
def pow10exp (den : ℕ) : ℕ :=
  match (List.range (den + 1)).find? (fun k => 10 ^ k % den == 0) with
  | some k => k
  | none => 0

/-- The decimal digit string (zero-padded to more than pow10exp places) of
the numerator scaled to denominator 10 ^ pow10exp. -/
def qRenderDigits (q : ℚ) : List Char :=
  let k := pow10exp q.den
  let m : ℤ := q.num * ((10 ^ k : ℕ) / q.den : ℕ)
  let ds0 := natChars m.natAbs
  if ds0.length ≤ k then List.replicate (k + 1 - ds0.length) '0' ++ ds0 else ds0

/-- Python str() of a float with an exact decimal expansion: sign, integer
digits, a decimal point and fractional digits (str(0.5) is 0.5, str(3.0)
is 3.0).  On a rational with no finite decimal expansion the digits are
truncated; such values do not arise as Python floats. -/
def qRender (q : ℚ) : String :=
  let k := pow10exp q.den
  let ds := qRenderDigits q
  let sign : List Char := if q.num < 0 then ['-'] else []
  let ip := ds.take (ds.length - k)
  let fp0 := ds.drop (ds.length - k)
  let fp := if fp0.isEmpty then ['0'] else fp0
  String.mk (sign ++ ip ++ '.' :: fp)

mutual

/-- Python str() of a value.  Inside containers Python uses repr, which
quotes strings; the quoting is omitted here (it only affects the
best-effort digit extraction applied to stringified containers, which no
claim touches). -/
def pyStr : JVal → String
  | .null => "None"
  | .bool b => if b then "True" else "False"
  | .num q => qRender q
  | .nan => "nan"
  | .str s => s
  | .list l => "[" ++ pyStrL l ++ "]"
  | .dict d => "\x7b" ++ pyStrD d ++ "\x7d"

/-- Comma-joined renderings of list elements. -/
def pyStrL : List JVal → String
  | [] => ""
  | [x] => pyStr x
  | x :: xs => pyStr x ++ ", " ++ pyStrL xs

/-- Comma-joined renderings of dict entries. -/
def pyStrD : List (String × JVal) → String
  | [] => ""
  | [(k, v)] => k ++ ": " ++ pyStr v
  | (k, v) :: xs => k ++ ": " ++ pyStr v ++ ", " ++ pyStrD xs

end

/-- Python float(v): numbers and booleans coerce, strings are parsed as
plain decimal literals after stripping whitespace, everything else (None,
lists, dicts) raises, modelled as none.  float() of a NaN float returns
it unchanged. -/
def toFloat : JVal → Option JVal
  | .num q => some (.num q)
  | .nan => some .nan
  | .bool b => some (.num (if b then 1 else 0))
  | .str s => (parseDecCore (stripChars s.toList)).map (fun q => .num q)
  | _ => none

/-- ros_data.py lines 189-195: the section branch of the location parser:
the open-air value canonicalizes to a fixed label, anything else is
title-cased. -/
def sectionNorm (v : List Char) : JVal :=
  let val := stripChars v
  if containsSub (toLowerList val) "open air".toList then .str "section 3 (Open air)"
  else .str (String.mk (pyTitle val))

/-- The regex (\d+)(?:\s*-\s*(\d+))? searched in a string: the first digit
run, optionally followed by whitespace, a dash, whitespace and a second
digit run. -/
def rowExtract : List Char → Option (List Char × Option (List Char))
  | [] => none
  | c :: rest =>
      if c.isDigit then
        let d1 := (c :: rest).takeWhile Char.isDigit
        let after := ((c :: rest).dropWhile Char.isDigit).dropWhile Char.isWhitespace
        match after with
        | '-' :: r2 =>
            let d2 := (r2.dropWhile Char.isWhitespace).takeWhile Char.isDigit
            if d2.isEmpty then some (d1, none) else some (d1, some d2)
        | _ => some (d1, none)
      else rowExtract rest

/-- ros_data.py lines 196-208: the row branch of the location parser. -/
def rowNorm (v : List Char) : JVal :=
  let rv := toLowerList (stripChars v)
  match rowExtract rv with
  | some (d1, some d2) => .str (String.mk ("row".toList ++ d1 ++ '-' :: d2))
  | some (d1, none) => .str (String.mk ("row".toList ++ d1))
  | none => .str (String.mk rv)

/-- ros_data.py lines 209-218: the position branch of the location parser;
regex extraction of the first number, failure degrading to None. -/
def positionNorm (v : List Char) : JVal :=
  match extractFirstFloat v with
  | some m =>
      match parseDecCore m with
      | some q => .num q
      | none => .null
  | none => .null

/-- ros_data.py lines 219-226: the direction branch of the location parser:
every occurrence of the two-character substrings -> and to is replaced by
the unicode arrow and the result stripped; if both cardinal names appear
(case-insensitively) the canonical South → North is stored. -/
def directionNorm (v : List Char) : JVal :=
  let dv := stripChars (replace2 't' 'o' "→".toList
    (replace2 '-' '>' "→".toList v))
  let low := toLowerList dv
  if containsSub low "north".toList && containsSub low "south".toList then
    .str "South → North"
  else .str (String.mk dv)

/-- ros_data.py lines 173-178: the initial all-None location record. -/
def defaultLoc : Dict :=
  [("section", .null), ("row", .null), ("position_from_N", .null), ("direction", .null)]

/-- ros_data.py lines 185-237: process one comma-separated segment into the
location record (tagged segments by key substring, untagged segments only
for cardinal-direction detection). -/
def segStep (out : Dict) (p : List Char) : Dict :=
  if p.contains ':' then
    let kv := splitFirst ':' p
    let k := stripChars kv.1
    let v := stripChars kv.2
    let kl := toLowerList k
    if containsSub kl "section".toList then dictSet out "section" (sectionNorm v)
    else if containsSub kl "row".toList then dictSet out "row" (rowNorm v)
    else if containsSub kl "position".toList || containsSub kl "position_from_n".toList then
      dictSet out "position_from_N" (positionNorm v)
    else if containsSub kl "direction".toList then dictSet out "direction" (directionNorm v)
    else dictSet out (String.mk k) (.str (String.mk v))
  else
    let low := toLowerList p
    if containsSub low "north".toList || containsSub low "south".toList then
      if containsSub low "north".toList && containsSub low "south".toList then
        dictSet out "direction" (.str "South → North")
      else dictSet out "direction" (.str (String.mk p))
    else out

/-- ros_data.py lines 166-238, body after the input guard: split into
comma-separated segments (re.split on a comma plus following whitespace,
equivalent to a bare comma split followed by the per-part strip), drop
empty parts, and fold each segment into the record. -/
def parseLocCore (s : String) : Dict :=
  let parts := ((splitOnChar ',' s.toList).map stripChars).filter (fun p => !p.isEmpty)
  parts.foldl segStep defaultLoc

/-- _parse_location_string (ros_data.py lines 166-238): falsy or non-string
input yields the all-None record; otherwise the body runs. -/
def parse_location_string (s : JVal) : Dict :=
  if jFalsy s then defaultLoc
  else
    match s with
    | .str t => parseLocCore t
    | _ => defaultLoc

/-- Python a or b: b when a is falsy, else a. -/
def pyOr (a b : JVal) : JVal :=
  if jFalsy a then b else a

/-- ros_data.py lines 79-92: normalize an already-structured location dict:
copy section, row and direction verbatim, and re-parse the distance from
the stringified first truthy candidate among position_from_N, position
and position_from_n (the Python or-chain); when the chain yields None the
distance stays None. -/
def locFromDict (loc : Dict) : Dict :=
  let base : Dict :=
    [("section", dictGet loc "section"), ("row", dictGet loc "row"),
     ("position_from_N", .null), ("direction", dictGet loc "direction")]
  let pos := pyOr (dictGet loc "position_from_N")
    (pyOr (dictGet loc "position") (dictGet loc "position_from_n"))
  match pos with
  | .null => base
  | p =>
      match extractFirstFloat (pyStr p).toList with
      | some m =>
          match parseDecCore m with
          | some q => dictSet base "position_from_N" (.num q)
          | none => dictSet base "position_from_N" .null
      | none => dictSet base "position_from_N" .null

/-- ros_data_t (ros_data.py lines 7-40): the latest-known-state record.
All payload fields are dynamically typed and default to None. -/
structure RosData where
  is_data_available : Bool := false
  g_timestamp : JVal := .null
  g_latitude : JVal := .null
  g_longitude : JVal := .null
  g_altitude : JVal := .null
  g_status : JVal := .null
  g_service : JVal := .null
  t_entity_count : JVal := .null
  t_canopy_temperature : JVal := .null
  t_cswi : JVal := .null
  n_ndvi : JVal := .null
  n_ndvi_3d : JVal := .null
  n_ir : JVal := .null
  n_visible : JVal := .null
  n_area : JVal := .null
  n_location : JVal := .null
  n_biomass : JVal := .null
  n_crop_light_state : JVal := .null
  n_crop_type : JVal := .null
  n_ambient_temperature : JVal := .null
  n_relative_humidity : JVal := .null
  n_absolute_humidity : JVal := .null
  n_dew_point : JVal := .null
  tf_x : JVal := .null
  tf_y : JVal := .null
  tf_z : JVal := .null
  t_plants : JVal := .null

/-- The message categories of the update dispatch chain (ros_data.py
lines 52-150), one per elif branch, in source order. -/
inductive Category where
  | gps | ambient | ndvi | area | location | biomass | lightState | cropType
  | temperature | relHumidity | absHumidity | dewPoint | tfPosition
deriving DecidableEq

/-- The substring tags of the dispatch chain, in the order the elif chain
tests them. -/
def tagList : List String :=
  ["gps", "ambient_temperature", "ndvi", "area", "location", "biomass",
   "light_state", "crop_type", "temperature", "relative_humidity",
   "absolute_humidity", "dew_point", "tf_position"]

/-- The category owning a tag. -/
def catOfTag : String → Option Category
  | "gps" => some .gps
  | "ambient_temperature" => some .ambient
  | "ndvi" => some .ndvi
  | "area" => some .area
  | "location" => some .location
  | "biomass" => some .biomass
  | "light_state" => some .lightState
  | "crop_type" => some .cropType
  | "temperature" => some .temperature
  | "relative_humidity" => some .relHumidity
  | "absolute_humidity" => some .absHumidity
  | "dew_point" => some .dewPoint
  | "tf_position" => some .tfPosition
  | _ => none

/-- The elif chain of ros_data.update (lines 52-154): first substring tag
contained in the discriminator wins; none matches the final else. -/
def classify (s : String) : Option Category :=
  if strContains s "gps" then some .gps
  else if strContains s "ambient_temperature" then some .ambient
  else if strContains s "ndvi" then some .ndvi
  else if strContains s "area" then some .area
  else if strContains s "location" then some .location
  else if strContains s "biomass" then some .biomass
  else if strContains s "light_state" then some .lightState
  else if strContains s "crop_type" then some .cropType
  else if strContains s "temperature" then some .temperature
  else if strContains s "relative_humidity" then some .relHumidity
  else if strContains s "absolute_humidity" then some .absHumidity
  else if strContains s "dew_point" then some .dewPoint
  else if strContains s "tf_position" then some .tfPosition
  else none

/-- ros_data.py lines 116-117, the canopy-temperature comprehension:
collect float(p.get("canopy_temperature")) over the dict entries whose
value is not None; a non-dict entry or a failing coercion raises, giving
none (caught by the enclosing except). -/
def canopyTemps : List JVal → Option (List JVal)
  | [] => some []
  | .dict d :: rest =>
      (match dictGet d "canopy_temperature" with
       | .null => canopyTemps rest
       | v =>
           match toFloat v with
           | some f => (canopyTemps rest).map (fun t => f :: t)
           | none => none)
  | _ :: _ => none

/-- Is a value the float NaN. -/
def isNan : JVal → Bool
  | .nan => true
  | _ => false

/-- The rational carried by a number value. -/
def numVal : JVal → Option ℚ
  | .num q => some q
  | _ => none

/-- ros_data.py lines 115-120: the backward-compatible mean of the
canopy_temperature sub-field; any exception or an empty collection yields
None; a NaN sample poisons the float sum, yielding NaN.  The float mean
is modelled as the exact rational mean. -/
def canopyAvg (ps : List JVal) : JVal :=
  match canopyTemps ps with
  | none => .null
  | some temps =>
      if temps.isEmpty then .null
      else if temps.any isNan then .nan
      else .num ((temps.filterMap numVal).sum / temps.length)

/-- ros_data.py lines 122-125: the older flat temperature format. -/
def flatTemp (rd : RosData) (data : Dict) : RosData :=
  { rd with
    t_entity_count := dictGet data "entity_count",
    t_canopy_temperature := dictGet data "canopy_temperature",
    t_cswi := dictGet data "cwsi" }

/-- The body of the matched elif branch of ros_data.update (lines 52-150),
given the already-classified category. -/
def applyCategory (rd : RosData) (data : Dict) : Category → RosData
  | .gps =>
      { rd with
        g_timestamp := dictGetD data "ts" (dictGet data "timestamp"),
        g_latitude := dictGet data "latitude",
        g_longitude := dictGet data "longitude",
        g_altitude := dictGet data "altitude",
        g_status := dictGet data "status",
        g_service := dictGet data "service" }
  | .ambient =>
      { rd with n_ambient_temperature :=
          dictGetD data "ambient_temperature" (dictGet data "ambient_temperature") }
  | .ndvi =>
      { rd with
        n_ndvi := dictGetD data "ndvi" (dictGet data "ndvi_value"),
        n_ndvi_3d := dictGetD data "ndvi_3d" (dictGet data "ndvi3d"),
        n_ir := dictGetD data "ndvi_ir" (dictGet data "ir"),
        n_visible := dictGetD data "ndvi_visible" (dictGet data "visible") }
  | .area => { rd with n_area := dictGet data "area" }
  | .location =>
      (match dictGet data "location" with
       | .dict d => { rd with n_location := .dict (locFromDict d) }
       | .str t => { rd with n_location := .dict (parse_location_string (.str t)) }
       | _ => { rd with n_location := .null })
  | .biomass => { rd with n_biomass := dictGet data "biomass" }
  | .lightState =>
      { rd with n_crop_light_state :=
          dictGetD data "crop_light_state" (dictGet data "light_state") }
  | .cropType => { rd with n_crop_type := dictGet data "crop_type" }
  | .temperature =>
      (match dictGet data "plants" with
       | .list ps =>
           if ps.isEmpty then flatTemp rd data
           else
             { rd with
               t_plants := .list ps,
               t_entity_count := dictGetD data "entity_count" (.num ps.length),
               t_canopy_temperature := canopyAvg ps }
       | _ => flatTemp rd data)
  | .relHumidity =>
      { rd with n_relative_humidity :=
          dictGetD data "relative_humidity" (dictGet data "humidity") }
  | .absHumidity => { rd with n_absolute_humidity := dictGet data "absolute_humidity" }
  | .dewPoint => { rd with n_dew_point := dictGet data "dew_point" }
  | .tfPosition =>
      if hasKey data "x" && hasKey data "y" && hasKey data "z" then
        match toFloat (dictGet data "x"), toFloat (dictGet data "y"),
              toFloat (dictGet data "z") with
        | some fx, some fy, some fz => { rd with tf_x := fx, tf_y := fy, tf_z := fz }
        | _, _, _ =>
            { rd with
              tf_x := dictGet data "x",
              tf_y := dictGet data "y",
              tf_z := dictGet data "z" }
      else
        match dictGet data "point" with
        | .dict p =>
            (match toFloat (dictGet p "x"), toFloat (dictGet p "y"),
                   toFloat (dictGet p "z") with
             | some fx, some fy, some fz => { rd with tf_x := fx, tf_y := fy, tf_z := fz }
             | _, _, _ =>
                 { rd with
                   tf_x := dictGet p "x",
                   tf_y := dictGet p "y",
                   tf_z := dictGet p "z" })
        | _ => rd

/-- ros_data_t.update (ros_data.py lines 43-160).  A falsy msg_type returns
before the try block; a matched or unmatched string discriminator reaches
line 157 and marks data available; a truthy non-string discriminator makes
the substring test raise TypeError, caught at line 159 with no field
written.  (A truthy non-string container whose elements include a tag
would instead dispatch through Python membership; such discriminators do
not occur and are modelled through the exception path.) -/
def rosUpdate (rd : RosData) (data : Dict) : RosData :=
  match dictGet data "msg_type" with
  | .str s =>
      if s.isEmpty then rd
      else
        match classify s with
        | some c => { applyCategory rd data c with is_data_available := true }
        | none => { rd with is_data_available := true }
  | _ => rd

/-- The server node state read by the publisher loop: the shared ros_data
record and the timestamp of the last received MQTT message
(mqtt_bridge_server.py lines 59-62). -/
structure ServerState where
  ros_data : RosData := {}
  last_msg_time : ℚ := 0

/-- on_mqtt_message (mqtt_bridge_server.py lines 109-121) at time now with
the JSON decode result of the payload: a decode failure is caught with no
change; any decoded message first records the arrival time and marks data
available; a dict payload is then routed, while a non-dict payload makes
update raise before its try block (caught by the callback). -/
def on_mqtt_message (st : ServerState) (now : ℚ) (payload : Option JVal) : ServerState :=
  match payload with
  | none => st
  | some (.dict d) =>
      { ros_data := rosUpdate { st.ros_data with is_data_available := true } d,
        last_msg_time := now }
  | some _ =>
      { ros_data := { st.ros_data with is_data_available := true },
        last_msg_time := now }

/-- The per-window sample accumulators of robot_message_01
(mqtt_bridge_server.py lines 167-183), all created empty at window
start. -/
structure WindowAcc where
  canopy_temperature_samples : List JVal := []
  ndvi_samples : List JVal := []
  ndvi_3d_samples : List JVal := []
  ndvi_ir_samples : List JVal := []
  ndvi_visible_samples : List JVal := []
  area_samples : List JVal := []
  location_samples : List JVal := []
  biomass_samples : List JVal := []
  crop_light_state_samples : List JVal := []
  crop_type_samples : List JVal := []
  ambient_temperature_samples : List JVal := []
  relative_humidity_samples : List JVal := []
  absolute_humidity_samples : List JVal := []
  dew_point_samples : List JVal := []
  utm_baselink_X_samples : List JVal := []
  utm_baselink_Y_samples : List JVal := []
  utm_baselink_Z_samples : List JVal := []

/-- One iteration of the inner polling loop of robot_message_01
(mqtt_bridge_server.py lines 187-233): a truthy plant list is flattened by
id into the canopy accumulator, otherwise the flat canopy scalar is
sampled; every other tracked field is sampled through manage_data. -/
def pollOnce (rd : RosData) (acc : WindowAcc) : WindowAcc :=
  let canopy :=
    match rd.t_plants with
    | .list ps =>
        if ps.isEmpty then manage_data rd.t_canopy_temperature acc.canopy_temperature_samples
        else flattenPlants acc.canopy_temperature_samples ps
    | _ => manage_data rd.t_canopy_temperature acc.canopy_temperature_samples
  { canopy_temperature_samples := canopy,
    ndvi_samples := manage_data rd.n_ndvi acc.ndvi_samples,
    ndvi_3d_samples := manage_data rd.n_ndvi_3d acc.ndvi_3d_samples,
    ndvi_ir_samples := manage_data rd.n_ir acc.ndvi_ir_samples,
    ndvi_visible_samples := manage_data rd.n_visible acc.ndvi_visible_samples,
    area_samples := manage_data rd.n_area acc.area_samples,
    location_samples := manage_data rd.n_location acc.location_samples,
    biomass_samples := manage_data rd.n_biomass acc.biomass_samples,
    crop_light_state_samples := manage_data rd.n_crop_light_state acc.crop_light_state_samples,
    crop_type_samples := manage_data rd.n_crop_type acc.crop_type_samples,
    ambient_temperature_samples :=
      manage_data rd.n_ambient_temperature acc.ambient_temperature_samples,
    relative_humidity_samples :=
      manage_data rd.n_relative_humidity acc.relative_humidity_samples,
    absolute_humidity_samples :=
      manage_data rd.n_absolute_humidity acc.absolute_humidity_samples,
    dew_point_samples := manage_data rd.n_dew_point acc.dew_point_samples,
    utm_baselink_X_samples := manage_data rd.tf_x acc.utm_baselink_X_samples,
    utm_baselink_Y_samples := manage_data rd.tf_y acc.utm_baselink_Y_samples,
    utm_baselink_Z_samples := manage_data rd.tf_z acc.utm_baselink_Z_samples }

/-- The all_samples list of robot_message_01 (mqtt_bridge_server.py lines
268-274), in source order. -/
def allSamples (acc : WindowAcc) : List (List JVal) :=
  [acc.canopy_temperature_samples, acc.ndvi_samples, acc.ndvi_3d_samples,
   acc.ndvi_ir_samples, acc.ndvi_visible_samples, acc.area_samples,
   acc.location_samples, acc.biomass_samples, acc.crop_light_state_samples,
   acc.crop_type_samples, acc.ambient_temperature_samples,
   acc.relative_humidity_samples, acc.absolute_humidity_samples,
   acc.dew_point_samples, acc.utm_baselink_X_samples,
   acc.utm_baselink_Y_samples, acc.utm_baselink_Z_samples]

/-- The publish gate of robot_message_01 (mqtt_bridge_server.py line 277):
publish only when the last message arrived at or after the window start
and some accumulator is non-empty. -/
def decidePublish (lastMsgTime startTime : ℚ) (acc : WindowAcc) : Bool :=
  decide (startTime ≤ lastMsgTime) && (allSamples acc).any (fun l => !l.isEmpty)

mutual

theorem jeq_iff : ∀ a b : JVal, jeq a b = true ↔ a = b
  | .null, b => by cases b <;> simp [jeq]
  | .bool a, b => by cases b <;> simp [jeq]
  | .num a, b => by cases b <;> simp [jeq]
  | .nan, b => by cases b <;> simp [jeq]
  | .str a, b => by cases b <;> simp [jeq]
  | .list a, b => by
      cases b <;> simp [jeq]
      exact jeqL_iff a _
  | .dict a, b => by
      cases b <;> simp [jeq]
      exact jeqD_iff a _

theorem jeqL_iff : ∀ a b : List JVal, jeqL a b = true ↔ a = b
  | [], b => by cases b <;> simp [jeqL]
  | x :: xs, [] => by simp [jeqL]
  | x :: xs, y :: ys => by
      simp [jeqL, Bool.and_eq_true, jeq_iff x y, jeqL_iff xs ys]

theorem jeqD_iff : ∀ a b : List (String × JVal), jeqD a b = true ↔ a = b
  | [], b => by cases b <;> simp [jeqD]
  | x :: xs, [] => by cases x; simp [jeqD]
  | (k1, v1) :: xs, (k2, v2) :: ys => by
      simp [jeqD, Bool.and_eq_true, jeq_iff v1 v2, jeqD_iff xs ys, and_assoc]

end

instance : DecidableEq JVal := fun a b => decidable_of_iff _ (jeq_iff a b)

theorem pyEq_refl_scalar (v : JVal) (h : isScalar v = true) : pyEq v v = true := by
  cases v <;> simp_all [pyEq, isScalar]

theorem pyMem_append_self (v : JVal) (s : List JVal) (h : pyEq v v = true) :
    pyMem v (s ++ [v]) = true := by
  simp [pyMem, List.any_append, h]

theorem manage_data_null (s : List JVal) : manage_data JVal.null s = s := rfl

theorem manage_data_nan (s : List JVal) : manage_data JVal.nan s = s := rfl

theorem manage_data_mem (v : JVal) (s : List JVal) (h : pyMem v s = true) :
    manage_data v s = s := by
  cases v <;> simp [manage_data, h]

theorem manage_data_not_mem (v : JVal) (s : List JVal) (hn : v ≠ JVal.null)
    (hnan : v ≠ JVal.nan) (h : pyMem v s = false) :
    manage_data v s = s ++ [v] := by
  cases v <;> simp_all [manage_data]

/-- C3: within one window, manage_data never appends None or a float NaN to
a scalar sample sequence, never appends a value already present, and
iterating it any positive number of times on the same scalar value leaves
the sequence with that value exactly once, appended at the end on first
sight. -/
theorem C3_scalar_dedup (v : JVal) (s : List JVal) (n : ℕ) :
    manage_data JVal.null s = s ∧
    manage_data JVal.nan s = s ∧
    (pyMem v s = true → manage_data v s = s) ∧
    (isScalar v = true → v ≠ JVal.null → v ≠ JVal.nan → 1 ≤ n →
      (manage_data v)^[n] s = if pyMem v s then s else s ++ [v]) := by
  refine ⟨manage_data_null s, manage_data_nan s, manage_data_mem v s, ?_⟩
  intro hscalar hnull hnan hn
  induction n, hn using Nat.le_induction with
  | base =>
      simp only [Function.iterate_one]
      by_cases h : pyMem v s = true
      · simp [h, manage_data_mem v s h]
      · have h' : pyMem v s = false := by simpa using h
        simp [h', manage_data_not_mem v s hnull hnan h']
  | succ n hn ih =>
      rw [Function.iterate_succ_apply', ih]
      by_cases h : pyMem v s = true
      · simp [h, manage_data_mem v s h]
      · have h' : pyMem v s = false := by simpa using h
        simp only [h', if_neg, Bool.false_eq_true, if_false]
        exact manage_data_mem v _ (pyMem_append_self v s (pyEq_refl_scalar v hscalar))

/-- Witness for C3 at a concrete scalar: five polls of the value 3 on an
empty accumulator leave exactly one sample. -/
theorem C3_witness : (manage_data (JVal.num 3))^[5] [] = [JVal.num 3] := by
  have h := (C3_scalar_dedup (JVal.num 3) [] 5).2.2.2 (by decide) (by decide)
    (by decide) (by decide)
  rw [h]
  decide

/-- C2: a window snapshot is published exactly when the last message
arrived at or after the window start and at least one sample sequence of
the aggregate is non-empty; in particular a window during which no
message arrived publishes nothing, however many polls of a populated
StateStore it performed. -/
theorem C2_publish_gate (lastMsg start : ℚ) :
    (∀ acc : WindowAcc, decidePublish lastMsg start acc = true ↔
      (start ≤ lastMsg ∧ ∃ l ∈ allSamples acc, l ≠ [])) ∧
    (lastMsg < start → ∀ (rd : RosData) (n : ℕ),
      decidePublish lastMsg start ((pollOnce rd)^[n] {}) = false) := by
  constructor
  · intro acc
    simp [decidePublish, List.any_eq_true, List.isEmpty_iff]
  · intro h rd n
    simp [decidePublish, not_le.mpr h]

/-- Witness for C2: a store still holding values from an earlier window is
polled three times, yet nothing is published because the last message
predates the window start. -/
theorem C2_witness :
    decidePublish 1 2 ((pollOnce { n_area := JVal.num 4 })^[3] {}) = false :=
  (C2_publish_gate 1 2).2 (by norm_num) { n_area := JVal.num 4 } 3

theorem dictGet_append (a b : Dict) (k : String) :
    dictGet (a ++ b) k = if hasKey a k then dictGet a k else dictGet b k := by
  induction a with
  | nil => simp [hasKey, dictGet]
  | cons p rest ih =>
      by_cases hp : p.1 == k
      · simp [dictGet, hasKey, List.find?_cons, hp]
      · simp only [List.cons_append, dictGet, List.find?_cons, hp, hasKey, List.any_cons,
          Bool.false_or]
        exact ih

theorem dictGet_cons (p : String × JVal) (rest : Dict) (k : String) :
    dictGet (p :: rest) k = if p.1 == k then p.2 else dictGet rest k := by
  by_cases h : p.1 == k <;> simp [dictGet, List.find?_cons, h]

theorem hasKey_cons (p : String × JVal) (rest : Dict) (k : String) :
    hasKey (p :: rest) k = (p.1 == k || hasKey rest k) := by
  simp [hasKey]

theorem dictGet_map_set (l : Dict) (k0 : String) (v0 : JVal) (k : String) :
    dictGet (l.map (fun p => if p.1 == k0 then (k0, v0) else p)) k =
      if k = k0 ∧ hasKey l k0 = true then v0 else dictGet l k := by
  induction l with
  | nil => simp [dictGet, hasKey]
  | cons p rest ih =>
      simp only [List.map_cons, dictGet_cons, hasKey_cons]
      by_cases hp : p.1 == k0
      · have hp' : p.1 = k0 := by simpa using hp
        simp only [hp, if_true, Bool.true_or]
        by_cases hk : k = k0
        · subst hk
          simp
        · have hk0 : (k0 == k) = false := by
            simpa using fun h => hk h.symm
          have hpk : (p.1 == k) = false := by
            rw [hp']
            exact hk0
          rw [hk0, ih, hpk]
          simp [hk]
      · have hpb : (p.1 == k0) = false := by simpa using hp
        simp only [hpb, if_false, Bool.false_or]
        by_cases hpk : p.1 == k
        · have hk : ¬(k = k0 ∧ hasKey (p :: rest) k0 = true) := by
            rintro ⟨rfl, -⟩
            exact absurd hpk hp
          by_cases hk' : k = k0 ∧ hasKey rest k0 = true
          · rcases hk' with ⟨rfl, hr⟩
            exact absurd hpk hp
          · simp [hpk, hk']
        · have hpk' : (p.1 == k) = false := by simpa using hpk
          simp only [hpk', Bool.false_eq_true, if_false]
          exact ih

theorem hasKey_iff_mem (d : Dict) (k : String) :
    hasKey d k = true ↔ k ∈ d.map Prod.fst := by
  simp [hasKey, List.any_eq_true, List.mem_map, beq_iff_eq]

theorem dictGet_not_hasKey (d : Dict) (k : String) (h : hasKey d k = false) :
    dictGet d k = JVal.null := by
  induction d with
  | nil => rfl
  | cons p rest ih =>
      rw [hasKey_cons, Bool.or_eq_false_iff] at h
      rw [dictGet_cons, h.1]
      simpa using ih h.2

theorem dictGet_dictSet (ex : Dict) (k0 : String) (v0 : JVal) (k : String) :
    dictGet (dictSet ex k0 v0) k = if k = k0 then v0 else dictGet ex k := by
  unfold dictSet
  by_cases hk : hasKey ex k0
  · rw [if_pos hk, dictGet_map_set]
    by_cases h : k = k0
    · simp [h, hk]
    · simp [h]
  · have hk' : hasKey ex k0 = false := by simpa using hk
    rw [if_neg hk, dictGet_append]
    by_cases h : k = k0
    · subst h
      rw [if_neg (by simp [hk']), dictGet_cons]
      simp [dictGet_not_hasKey ex k hk']
    · by_cases hek : hasKey ex k = true
      · simp [hek, h]
      · have hek' : hasKey ex k = false := by simpa using hek
        rw [if_neg (by simp [hek']), dictGet_cons]
        have hc : (k0 == k) = false := by simpa using fun hh => h hh.symm
        rw [hc]
        simp only [Bool.false_eq_true, if_false, if_neg h,
          dictGet_not_hasKey ex k hek']
        rfl

theorem dictGet_dictUpdate (d : Dict) :
    (d.map Prod.fst).Nodup → ∀ (ex : Dict) (k : String),
      dictGet (dictUpdate ex d) k =
        if hasKey d k then dictGet d k else dictGet ex k := by
  induction d with
  | nil => intro _ ex k; simp [dictUpdate, hasKey, dictGet]
  | cons kv rest ih =>
      rintro hnd ex k
      obtain ⟨k0, v0⟩ := kv
      simp only [List.map_cons, List.nodup_cons] at hnd
      obtain ⟨hk0, hrest⟩ := hnd
      have step : dictUpdate ex ((k0, v0) :: rest) = dictUpdate (dictSet ex k0 v0) rest := by
        simp [dictUpdate]
      rw [step, ih hrest, hasKey_cons, dictGet_cons]
      by_cases h : k = k0
      · subst h
        have hr : hasKey rest k = false := by
          rw [← Bool.not_eq_true, hasKey_iff_mem]
          exact hk0
        simp [hr, dictGet_dictSet]
      · have hk0k : (k0 == k) = false := by simpa using fun hh => h hh.symm
        by_cases hr : hasKey rest k = true
        · simp [hr, hk0k]
        · have hr' : hasKey rest k = false := by simpa using hr
          simp [hr', hk0k, dictGet_dictSet, h]

theorem sampleIds_cons_dict_null (e : Dict) (xs : List JVal)
    (h : dictGet e "id" = JVal.null) :
    sampleIds (JVal.dict e :: xs) = sampleIds xs := by
  simp [sampleIds, List.filterMap_cons, h]

theorem sampleIds_cons_dict_some (e : Dict) (xs : List JVal)
    (h : dictGet e "id" ≠ JVal.null) :
    sampleIds (JVal.dict e :: xs) = dictGet e "id" :: sampleIds xs := by
  cases hv : dictGet e "id" <;> simp [sampleIds, List.filterMap_cons, hv]
  exact absurd hv h

theorem sampleIds_cons_other (x : JVal) (xs : List JVal)
    (h : ∀ e : Dict, x ≠ JVal.dict e) :
    sampleIds (x :: xs) = sampleIds xs := by
  cases x
  case dict e => exact absurd rfl (h e)
  all_goals simp [sampleIds, List.filterMap_cons]

theorem updateById_decomp (pid : JVal) (d : Dict) (samples : List JVal)
    (hmem : pyMem pid (sampleIds samples) = true) :
    ∃ pre ex post, samples = pre ++ JVal.dict ex :: post ∧
      pyEq (dictGet ex "id") pid = true ∧
      (∀ y ∈ pre, ∀ e : Dict, y = JVal.dict e → pyEq (dictGet e "id") pid = false) ∧
      updateById pid d samples = pre ++ JVal.dict (dictUpdate ex d) :: post := by
  induction samples with
  | nil => simp [sampleIds, pyMem] at hmem
  | cons x xs ih =>
      by_cases hd : ∃ e : Dict, x = JVal.dict e
      · obtain ⟨e, rfl⟩ := hd
        by_cases hx : pyEq (dictGet e "id") pid = true
        · exact ⟨[], e, xs, rfl, hx, by simp, by simp [updateById, hx]⟩
        · have hx' : pyEq (dictGet e "id") pid = false := by simpa using hx
          have hxs : pyMem pid (sampleIds xs) = true := by
            by_cases hnull : dictGet e "id" = JVal.null
            · rwa [sampleIds_cons_dict_null e xs hnull] at hmem
            · rw [sampleIds_cons_dict_some e xs hnull] at hmem
              simp only [pyMem, List.any_cons, Bool.or_eq_true] at hmem
              rcases hmem with h1 | h2
              · exact absurd h1 hx
              · simpa [pyMem] using h2
          obtain ⟨pre, ex, post, he, hpy, hpre, hupd⟩ := ih hxs
          refine ⟨JVal.dict e :: pre, ex, post, by rw [he, List.cons_append], hpy, ?_, ?_⟩
          · intro y hy e' hye
            rcases List.mem_cons.mp hy with h1 | h2
            · subst h1
              cases hye
              exact hx'
            · exact hpre y h2 e' hye
          · simp [updateById, hx', hupd]
      · push_neg at hd
        have hxs : pyMem pid (sampleIds xs) = true := by
          rwa [sampleIds_cons_other x xs hd] at hmem
        obtain ⟨pre, ex, post, he, hpy, hpre, hupd⟩ := ih hxs
        refine ⟨x :: pre, ex, post, by rw [he, List.cons_append], hpy, ?_, ?_⟩
        · intro y hy e' hye
          rcases List.mem_cons.mp hy with h1 | h2
          · subst h1
            exact absurd hye (hd e')
          · exact hpre y h2 e' hye
        · have hxu : updateById pid d (x :: xs) = x :: updateById pid d xs := by
            cases x
            case dict e => exact absurd rfl (hd e)
            all_goals simp [updateById]
          rw [hxu, hupd, List.cons_append]

/-- C1: routing a plant record through the window accumulator merges by
id.  A record whose non-None id is already present updates the first
matching record field-by-field (existing fields not named by the update
survive, fields named by the update take its values) without changing the
sequence length, so re-routing an existing id never duplicates the
entity; a record with a fresh id is appended; a record without an id is
appended only when no Python-equal record is present. -/
theorem C1_entity_merge_by_id (samples : List JVal) (d : Dict) :
    (dictGet d "id" ≠ JVal.null →
      pyMem (dictGet d "id") (sampleIds samples) = true →
      ∃ pre ex post, samples = pre ++ JVal.dict ex :: post ∧
        pyEq (dictGet ex "id") (dictGet d "id") = true ∧
        (∀ y ∈ pre, ∀ e : Dict, y = JVal.dict e →
          pyEq (dictGet e "id") (dictGet d "id") = false) ∧
        flattenPlants samples [JVal.dict d] =
          pre ++ JVal.dict (dictUpdate ex d) :: post ∧
        (flattenPlants samples [JVal.dict d]).length = samples.length) ∧
    (dictGet d "id" ≠ JVal.null →
      pyMem (dictGet d "id") (sampleIds samples) = false →
      flattenPlants samples [JVal.dict d] = samples ++ [JVal.dict d]) ∧
    (dictGet d "id" = JVal.null →
      flattenPlants samples [JVal.dict d] =
        if pyMem (JVal.dict d) samples then samples else samples ++ [JVal.dict d]) ∧
    (∀ (ex : Dict) (k : String), (d.map Prod.fst).Nodup →
      dictGet (dictUpdate ex d) k =
        if hasKey d k then dictGet d k else dictGet ex k) := by
  refine ⟨?_, ?_, ?_, ?_⟩
  · intro hne hmem
    obtain ⟨pre, ex, post, he, hpy, hpre, hupd⟩ :=
      updateById_decomp (dictGet d "id") d samples hmem
    have hf : flattenPlants samples [JVal.dict d] =
        updateById (dictGet d "id") d samples := by
      unfold flattenPlants
      simp only [List.foldl_cons, List.foldl_nil]
      cases hv : dictGet d "id"
      case null => exact absurd hv hne
      all_goals rw [hv] at hmem
      all_goals simp [flattenStep, hv, hmem]
    refine ⟨pre, ex, post, he, hpy, hpre, ?_, ?_⟩
    · rw [hf, hupd]
    · rw [hf, hupd, he]
      simp
  · intro hne hmem
    unfold flattenPlants
    simp only [List.foldl_cons, List.foldl_nil]
    cases hv : dictGet d "id"
    case null => exact absurd hv hne
    all_goals rw [hv] at hmem
    all_goals simp [flattenStep, hv, hmem]
  · intro hnull
    unfold flattenPlants
    simp only [List.foldl_cons, List.foldl_nil]
    by_cases hm : pyMem (JVal.dict d) samples = true
    · simp [flattenStep, hnull, hm]
    · have hm' : pyMem (JVal.dict d) samples = false := by simpa using hm
      simp [flattenStep, hnull, hm']
  · intro ex k hnd
    exact dictGet_dictUpdate d hnd ex k

/-- Witness for C1 at concrete records: re-routing id 1 with a changed
reading updates the stored record in place (the untouched label field
survives) without duplicating the entity, a fresh id 2 is appended, and a
record without id is appended only once. -/
theorem C1_witness :
    (flattenPlants
        [JVal.dict [("id", JVal.num 1), ("canopy_temperature", JVal.num 20),
          ("label", JVal.str "a")]]
        [JVal.dict [("id", JVal.num 1), ("canopy_temperature", JVal.num 25)]]).length = 1 ∧
    flattenPlants [JVal.dict [("id", JVal.num 1)]]
        [JVal.dict [("id", JVal.num 2)]] =
      [JVal.dict [("id", JVal.num 1)], JVal.dict [("id", JVal.num 2)]] ∧
    flattenPlants [JVal.dict [("x", JVal.num 7)]] [JVal.dict [("x", JVal.num 7)]] =
      [JVal.dict [("x", JVal.num 7)]] ∧
    dictGet (dictUpdate [("id", JVal.num 1), ("canopy_temperature", JVal.num 20),
        ("label", JVal.str "a")]
        [("id", JVal.num 1), ("canopy_temperature", JVal.num 25)]) "label" =
      JVal.str "a" := by
  refine ⟨?_, ?_, ?_, ?_⟩
  · obtain ⟨pre, ex, post, he, hpy, hpre, hflat, hlen⟩ :=
      (C1_entity_merge_by_id
        [JVal.dict [("id", JVal.num 1), ("canopy_temperature", JVal.num 20),
          ("label", JVal.str "a")]]
        [("id", JVal.num 1), ("canopy_temperature", JVal.num 25)]).1
        (by decide) (by decide)
    rw [hlen]
    rfl
  · have h :=
      (C1_entity_merge_by_id [JVal.dict [("id", JVal.num 1)]]
        [("id", JVal.num 2)]).2.1 (by decide) (by decide)
    simpa using h
  · have h :=
      (C1_entity_merge_by_id [JVal.dict [("x", JVal.num 7)]]
        [("x", JVal.num 7)]).2.2.1 (by decide)
    rw [h]
    decide
  · have h :=
      (C1_entity_merge_by_id ([] : List JVal)
        [("id", JVal.num 1), ("canopy_temperature", JVal.num 25)]).2.2.2
        [("id", JVal.num 1), ("canopy_temperature", JVal.num 20), ("label", JVal.str "a")]
        "label" (by decide)
    rw [h]
    decide

theorem dictGetD_cons (p : String × JVal) (rest : Dict) (k : String) (dflt : JVal) :
    dictGetD (p :: rest) k dflt = if p.1 == k then p.2 else dictGetD rest k dflt := by
  by_cases h : p.1 == k <;> simp [dictGetD, List.find?_cons, h]

theorem dictGetD_not_hasKey (d : Dict) (k : String) (dflt : JVal)
    (h : hasKey d k = false) : dictGetD d k dflt = dflt := by
  induction d with
  | nil => rfl
  | cons p rest ih =>
      rw [hasKey_cons, Bool.or_eq_false_iff] at h
      rw [dictGetD_cons, h.1]
      simpa using ih h.2

theorem dictGetD_hasKey (d : Dict) (k : String) (dflt : JVal)
    (h : hasKey d k = true) : dictGetD d k dflt = dictGet d k := by
  induction d with
  | nil => simp [hasKey] at h
  | cons p rest ih =>
      rw [dictGetD_cons, dictGet_cons]
      by_cases hp : p.1 == k
      · simp [hp]
      · have hp' : (p.1 == k) = false := by simpa using hp
        rw [hasKey_cons, hp', Bool.false_or] at h
        simp [hp', ih h]

theorem rosUpdate_matched (rd : RosData) (data : Dict) (s : String) (c : Category)
    (hmsg : dictGet data "msg_type" = JVal.str s) (hc : classify s = some c) :
    rosUpdate rd data = { applyCategory rd data c with is_data_available := true } := by
  have hs : s.isEmpty = false := by
    by_cases h : s.isEmpty = true
    · rw [(String.isEmpty_iff s).mp h] at hc
      rw [show classify "" = none from by decide] at hc
      exact Option.noConfusion hc
    · simpa using h
  simp [rosUpdate, hmsg, hs, hc]

theorem rosUpdate_unmatched (rd : RosData) (data : Dict) (s : String)
    (hmsg : dictGet data "msg_type" = JVal.str s) (hs : s.isEmpty = false)
    (hc : classify s = none) :
    rosUpdate rd data = { rd with is_data_available := true } := by
  simp [rosUpdate, hmsg, hs, hc]

theorem rosUpdate_falsy (rd : RosData) (data : Dict)
    (h : jFalsy (dictGet data "msg_type") = true) : rosUpdate rd data = rd := by
  cases hv : dictGet data "msg_type"
  case str s =>
    rw [hv] at h
    have hs : s.isEmpty = true := by simpa [jFalsy] using h
    simp [rosUpdate, hv, hs]
  all_goals simp [rosUpdate, hv]

/-- C10: a routed temperature message carrying a non-empty plants list
stores the whole list, and the stored entity count falls back to the list
length when no entity_count key is present, while a present entity_count
key is stored verbatim. -/
theorem C10_entity_count_fallback (rd : RosData) (data : Dict) (s : String)
    (ps : List JVal) (hmsg : dictGet data "msg_type" = JVal.str s)
    (hc : classify s = some Category.temperature)
    (hp : dictGet data "plants" = JVal.list ps) (hne : ps ≠ []) :
    (rosUpdate rd data).t_plants = JVal.list ps ∧
    (hasKey data "entity_count" = false →
      (rosUpdate rd data).t_entity_count = JVal.num ps.length) ∧
    (hasKey data "entity_count" = true →
      (rosUpdate rd data).t_entity_count = dictGet data "entity_count") := by
  have hemp : ps.isEmpty = false := by simpa [List.isEmpty_iff] using hne
  refine ⟨?_, ?_, ?_⟩
  · rw [rosUpdate_matched rd data s .temperature hmsg hc]
    simp [applyCategory, hp, hemp]
  · intro h
    rw [rosUpdate_matched rd data s .temperature hmsg hc]
    simp [applyCategory, hp, hemp, dictGetD_not_hasKey data "entity_count" _ h]
  · intro h
    rw [rosUpdate_matched rd data s .temperature hmsg hc]
    simp [applyCategory, hp, hemp, dictGetD_hasKey data "entity_count" _ h]

/-- Witness for C10: with two plants and no entity_count key the stored
count is 2; with an explicit entity_count of 5 the stored count is 5. -/
theorem C10_witness :
    (rosUpdate {} [("msg_type", JVal.str "temperature"),
        ("plants", JVal.list [JVal.dict [("id", JVal.num 1)],
          JVal.dict [("id", JVal.num 2)]])]).t_entity_count = JVal.num 2 ∧
    (rosUpdate {} [("msg_type", JVal.str "temperature"),
        ("entity_count", JVal.num 5),
        ("plants", JVal.list [JVal.dict [("id", JVal.num 1)]])]).t_entity_count =
      JVal.num 5 := by
  constructor
  · have h := (C10_entity_count_fallback {} [("msg_type", JVal.str "temperature"),
        ("plants", JVal.list [JVal.dict [("id", JVal.num 1)],
          JVal.dict [("id", JVal.num 2)]])] "temperature"
        [JVal.dict [("id", JVal.num 1)], JVal.dict [("id", JVal.num 2)]]
        (by decide) (by decide) (by decide) (by decide)).2.1 (by decide)
    simpa using h
  · have h := (C10_entity_count_fallback {} [("msg_type", JVal.str "temperature"),
        ("entity_count", JVal.num 5),
        ("plants", JVal.list [JVal.dict [("id", JVal.num 1)]])] "temperature"
        [JVal.dict [("id", JVal.num 1)]]
        (by decide) (by decide) (by decide) (by decide)).2.2 (by decide)
    rw [h]
    decide

theorem rosUpdate_preserves_flag (rd : RosData) (data : Dict)
    (h : rd.is_data_available = true) :
    (rosUpdate rd data).is_data_available = true := by
  cases hv : dictGet data "msg_type"
  case str s =>
    by_cases hs : s.isEmpty = true
    · simp [rosUpdate, hv, hs, h]
    · have hs' : s.isEmpty = false := by simpa using hs
      cases hc : classify s with
      | none => simp [rosUpdate, hv, hs', hc]
      | some c => simp [rosUpdate, hv, hs', hc]
  all_goals simp [rosUpdate, hv, h]

/-- C5 counterexample: a decodable message whose discriminator zzz matches
no category still gets the freshness marker (the callback stamps the
arrival time before routing) and the has-data marker (update sets it even
for unmatched categories), refuting the claim that neither marker is set
and that the freshness marker is updated exactly on category-matched
messages; the tracked fields themselves stay untouched. -/
theorem C5_counterexample :
    classify "zzz" = none ∧
    (on_mqtt_message {} 5 (some (JVal.dict [("msg_type", JVal.str "zzz")]))).last_msg_time = 5 ∧
    (on_mqtt_message {} 5
      (some (JVal.dict [("msg_type", JVal.str "zzz")]))).ros_data.is_data_available = true ∧
    (on_mqtt_message {} 5
      (some (JVal.dict [("msg_type", JVal.str "zzz")]))).ros_data.g_timestamp = JVal.null := by
  decide

/-- C5 amended: an absent or empty discriminator makes update return with
no mutation at all (not even the has-data marker); an unmatched
discriminator leaves every tracked field unchanged but does set the
has-data marker; and the freshness marker is stamped by the message
callback for every successfully decoded message, whatever the routing
outcome, while an undecodable payload changes nothing. -/
theorem C5_routing_markers_amended :
    (∀ (rd : RosData) (data : Dict), jFalsy (dictGet data "msg_type") = true →
      rosUpdate rd data = rd) ∧
    (∀ (rd : RosData) (data : Dict) (s : String),
      dictGet data "msg_type" = JVal.str s → s.isEmpty = false → classify s = none →
      rosUpdate rd data = { rd with is_data_available := true }) ∧
    (∀ (st : ServerState) (now : ℚ) (d : Dict),
      (on_mqtt_message st now (some (JVal.dict d))).last_msg_time = now ∧
      (on_mqtt_message st now (some (JVal.dict d))).ros_data.is_data_available = true) ∧
    (∀ (st : ServerState) (now : ℚ), on_mqtt_message st now none = st) := by
  refine ⟨?_, ?_, ?_, ?_⟩
  · exact rosUpdate_falsy
  · intro rd data s hmsg hs hc
    exact rosUpdate_unmatched rd data s hmsg hs hc
  · intro st now d
    exact ⟨rfl, rosUpdate_preserves_flag _ d rfl⟩
  · intro st now
    rfl

/-- Witness for C5 at concrete inputs: an empty discriminator leaves a
populated store untouched, an unmatched discriminator only sets the
has-data marker, a decoded message stamps the arrival time, and a decode
failure changes nothing. -/
theorem C5_witness :
    rosUpdate { n_area := JVal.num 1 } [("msg_type", JVal.str "")] =
      { n_area := JVal.num 1 } ∧
    rosUpdate {} [("msg_type", JVal.str "zzz")] = { is_data_available := true } ∧
    (on_mqtt_message {} 7 (some (JVal.dict [("msg_type", JVal.str "zzz")]))).last_msg_time = 7 ∧
    on_mqtt_message { last_msg_time := 3 } 9 none = { last_msg_time := 3 } := by
  refine ⟨?_, ?_, ?_, ?_⟩
  · exact C5_routing_markers_amended.1 { n_area := JVal.num 1 }
      [("msg_type", JVal.str "")] (by decide)
  · exact C5_routing_markers_amended.2.1 {} [("msg_type", JVal.str "zzz")] "zzz"
      (by decide) (by decide) (by decide)
  · exact (C5_routing_markers_amended.2.2.1 {} 7 [("msg_type", JVal.str "zzz")]).1
  · exact C5_routing_markers_amended.2.2.2 { last_msg_time := 3 } 9

/-- C4 counterexample: the tags ambient_temperature and temperature are
two distinct tags of the fixed tag set that both occur in the
discriminator ambient_temperature, which therefore routes as an ambient
scalar update and not as a canopy-measurement update, refuting both the
pairwise-disjointness claim and the claim that every discriminator
containing temperature routes as an entity update. -/
theorem C4_counterexample :
    "ambient_temperature" ∈ tagList ∧ "temperature" ∈ tagList ∧
    ("ambient_temperature" : String) ≠ "temperature" ∧
    strContains "ambient_temperature" "ambient_temperature" = true ∧
    strContains "ambient_temperature" "temperature" = true ∧
    classify "ambient_temperature" = some Category.ambient ∧
    Category.ambient ≠ Category.temperature ∧
    (rosUpdate {} [("msg_type", JVal.str "ambient_temperature"),
        ("ambient_temperature", JVal.num 21),
        ("plants", JVal.list [JVal.dict [("id", JVal.num 1)]])]).t_plants = JVal.null ∧
    (rosUpdate {} [("msg_type", JVal.str "ambient_temperature"),
        ("ambient_temperature", JVal.num 21),
        ("plants", JVal.list [JVal.dict [("id", JVal.num 1)]])]).n_ambient_temperature =
      JVal.num 21 := by
  decide

/-- C9 counterexample: in the tf/UTM message with x "3.5", y "abc", z 1,
the x coordinate does coerce to the float 3.5, yet after the update it
holds the raw string "3.5": the except block reassigns all three
coordinates to their raw values, so a coercion failure is not
field-local and coordinates that coerced do not keep their floats. -/
theorem C9_counterexample :
    (∃ q : ℚ, toFloat (JVal.str "3.5") = some (JVal.num q)) ∧
    (rosUpdate {} [("msg_type", JVal.str "tf_position"), ("x", JVal.str "3.5"),
      ("y", JVal.str "abc"), ("z", JVal.num 1)]).tf_x = JVal.str "3.5" ∧
    (∀ q : ℚ, JVal.str "3.5" ≠ JVal.num q) := by
  refine ⟨?_, by decide, fun q h => JVal.noConfusion h⟩
  have hs : (parseDecCore (stripChars "3.5".toList)).isSome = true := by decide
  obtain ⟨q, hq⟩ := Option.isSome_iff_exists.mp hs
  refine ⟨q, ?_⟩
  simp only [toFloat]
  rw [hq]
  rfl

/-- C9 amended: for a routed tf/UTM message, in both accepted shapes --
three top-level coordinates, or a nested point sub-record used when the
top-level keys are not all present -- when all three coordinates coerce
the coerced floats are stored, and when any coercion fails all three
coordinates retain their raw values (coercion failure is non-fatal but
message-wide, not field-local); the update still succeeds either way. -/
theorem C9_tf_coercion_amended (rd : RosData) (data p : Dict) (s : String)
    (hmsg : dictGet data "msg_type" = JVal.str s)
    (hc : classify s = some Category.tfPosition) :
    (hasKey data "x" = true → hasKey data "y" = true → hasKey data "z" = true →
      (∀ fx fy fz, toFloat (dictGet data "x") = some fx →
        toFloat (dictGet data "y") = some fy → toFloat (dictGet data "z") = some fz →
        (rosUpdate rd data).tf_x = fx ∧ (rosUpdate rd data).tf_y = fy ∧
          (rosUpdate rd data).tf_z = fz) ∧
      ((toFloat (dictGet data "x") = none ∨ toFloat (dictGet data "y") = none ∨
          toFloat (dictGet data "z") = none) →
        (rosUpdate rd data).tf_x = dictGet data "x" ∧
        (rosUpdate rd data).tf_y = dictGet data "y" ∧
        (rosUpdate rd data).tf_z = dictGet data "z")) ∧
    ((hasKey data "x" && hasKey data "y" && hasKey data "z") = false →
      dictGet data "point" = JVal.dict p →
      (∀ fx fy fz, toFloat (dictGet p "x") = some fx →
        toFloat (dictGet p "y") = some fy → toFloat (dictGet p "z") = some fz →
        (rosUpdate rd data).tf_x = fx ∧ (rosUpdate rd data).tf_y = fy ∧
          (rosUpdate rd data).tf_z = fz) ∧
      ((toFloat (dictGet p "x") = none ∨ toFloat (dictGet p "y") = none ∨
          toFloat (dictGet p "z") = none) →
        (rosUpdate rd data).tf_x = dictGet p "x" ∧
        (rosUpdate rd data).tf_y = dictGet p "y" ∧
        (rosUpdate rd data).tf_z = dictGet p "z")) ∧
    (rosUpdate rd data).is_data_available = true := by
  rw [rosUpdate_matched rd data s .tfPosition hmsg hc]
  refine ⟨fun hx hy hz => ⟨?_, ?_⟩, fun hk hp => ⟨?_, ?_⟩, rfl⟩
  · intro fx fy fz hfx hfy hfz
    simp [applyCategory, hx, hy, hz, hfx, hfy, hfz]
  · intro h
    cases hfx : toFloat (dictGet data "x") <;>
      cases hfy : toFloat (dictGet data "y") <;>
      cases hfz : toFloat (dictGet data "z") <;>
      simp_all [applyCategory, hx, hy, hz]
  · intro fx fy fz hfx hfy hfz
    simp [applyCategory, hk, hp, hfx, hfy, hfz]
  · intro h
    have happ : applyCategory rd data Category.tfPosition =
        (match toFloat (dictGet p "x"), toFloat (dictGet p "y"),
               toFloat (dictGet p "z") with
         | some fx, some fy, some fz => { rd with tf_x := fx, tf_y := fy, tf_z := fz }
         | _, _, _ =>
             { rd with
               tf_x := dictGet p "x",
               tf_y := dictGet p "y",
               tf_z := dictGet p "z" }) := by
      simp [applyCategory, hk, hp]
    rw [happ]
    cases hfx : toFloat (dictGet p "x") <;>
      cases hfy : toFloat (dictGet p "y") <;>
      cases hfz : toFloat (dictGet p "z") <;>
      simp_all

/-- Witness for C9: at top level, coordinates 1, 2, 3 all coerce and y
stores the float 2, while a failing y "abc" leaves x as its raw string
"3.5"; a nested point sub-record shows the same two behaviours. -/
theorem C9_witness :
    (rosUpdate {} [("msg_type", JVal.str "tf_position"), ("x", JVal.num 1),
      ("y", JVal.num 2), ("z", JVal.num 3)]).tf_y = JVal.num 2 ∧
    (rosUpdate {} [("msg_type", JVal.str "tf_position"), ("x", JVal.str "3.5"),
      ("y", JVal.str "abc"), ("z", JVal.num 1)]).tf_x = JVal.str "3.5" ∧
    (rosUpdate {} [("msg_type", JVal.str "tf_position"),
      ("point", JVal.dict [("x", JVal.num 1), ("y", JVal.num 2),
        ("z", JVal.num 3)])]).tf_y = JVal.num 2 ∧
    (rosUpdate {} [("msg_type", JVal.str "tf_position"),
      ("point", JVal.dict [("x", JVal.str "3.5"), ("y", JVal.str "abc"),
        ("z", JVal.num 1)])]).tf_x = JVal.str "3.5" := by
  refine ⟨?_, ?_, ?_, ?_⟩
  · exact (((C9_tf_coercion_amended {} [("msg_type", JVal.str "tf_position"),
      ("x", JVal.num 1), ("y", JVal.num 2), ("z", JVal.num 3)] [] "tf_position"
      (by decide) (by decide)).1 (by decide) (by decide) (by decide)).1
      (JVal.num 1) (JVal.num 2) (JVal.num 3)
      (by decide) (by decide) (by decide)).2.1
  · exact (((C9_tf_coercion_amended {} [("msg_type", JVal.str "tf_position"),
      ("x", JVal.str "3.5"), ("y", JVal.str "abc"), ("z", JVal.num 1)] []
      "tf_position" (by decide) (by decide)).1
      (by decide) (by decide) (by decide)).2
      (Or.inr (Or.inl (by decide)))).1
  · exact (((C9_tf_coercion_amended {} [("msg_type", JVal.str "tf_position"),
      ("point", JVal.dict [("x", JVal.num 1), ("y", JVal.num 2), ("z", JVal.num 3)])]
      [("x", JVal.num 1), ("y", JVal.num 2), ("z", JVal.num 3)] "tf_position"
      (by decide) (by decide)).2.1 (by decide) (by decide)).1
      (JVal.num 1) (JVal.num 2) (JVal.num 3)
      (by decide) (by decide) (by decide)).2.1
  · exact (((C9_tf_coercion_amended {} [("msg_type", JVal.str "tf_position"),
      ("point", JVal.dict [("x", JVal.str "3.5"), ("y", JVal.str "abc"),
        ("z", JVal.num 1)])]
      [("x", JVal.str "3.5"), ("y", JVal.str "abc"), ("z", JVal.num 1)] "tf_position"
      (by decide) (by decide)).2.1 (by decide) (by decide)).2
      (Or.inr (Or.inl (by decide)))).1


theorem contains_false_forall (l : List Char) (a : Char) (h : l.contains a = false) :
    ∀ c ∈ l, (c == a) = false := by
  induction l with
  | nil => intro c hc; cases hc
  | cons b bs ih =>
      intro c hc
      simp only [List.contains_cons, Bool.or_eq_false_iff] at h
      rcases List.mem_cons.mp hc with rfl | hm
      · have : ¬(a = c) := by simpa using h.1
        simpa using fun he => this he.symm
      · exact ih h.2 c hm

theorem splitOnChar_no_sep (sep : Char) (l : List Char)
    (h : ∀ c ∈ l, (c == sep) = false) : splitOnChar sep l = [l] := by
  induction l with
  | nil => rfl
  | cons c cs ih =>
      have hc : (c == sep) = false := h c (List.mem_cons_self c cs)
      have ihr : splitOnChar sep cs = [cs] := ih fun x hx => h x (List.mem_cons_of_mem c hx)
      simp [splitOnChar, hc, ihr]

theorem dropWhile_fix_head_false (p : Char → Bool) (c : Char) (t : List Char)
    (h : List.dropWhile p (c :: t) = c :: t) : p c = false := by
  by_contra hc
  have hc2 : p c = true := by simpa using hc
  rw [List.dropWhile_cons, if_pos hc2] at h
  have hle := (List.dropWhile_sublist (p := p) (l := t)).length_le
  have hlen := congrArg List.length h
  simp only [List.length_cons] at hlen
  omega

/-- C7 counterexample: the direction value Actor contains no ASCII arrow
token and no standalone word to, yet normalization rewrites it to the
string Ac(arrow)r, because the code replaces every occurrence of the
two-character substring to, not just the word. -/
theorem C7_counterexample :
    dictGet (parseLocCore "direction: Actor") "direction" = JVal.str "Ac→r" ∧
    JVal.str "Ac→r" ≠ JVal.str "Actor" ∧
    strContains "Actor" "->" = false := by
  decide

/-- C7 amended: the direction branch replaces every occurrence of the
substrings -> and to (also inside words) by the unicode arrow and strips
the result; if both cardinal names then appear case-insensitively the
canonical South → North is stored regardless of input order (both
North → South and South -> North map to it), otherwise the replaced text
is stored as-is (east to west becomes east → west, Actor becomes
Ac→r). -/
theorem C7_direction_amended (v : List Char) (hcomma : v.contains ',' = false)
    (hne : v ≠ []) (h1 : v.dropWhile Char.isWhitespace = v)
    (h2 : v.reverse.dropWhile Char.isWhitespace = v.reverse) :
    dictGet (parseLocCore (String.mk ("direction: ".toList ++ v))) "direction" =
      directionNorm v ∧
    dictGet (parseLocCore "direction: North → South") "direction" =
      JVal.str "South → North" ∧
    dictGet (parseLocCore "direction: South -> North") "direction" =
      JVal.str "South → North" ∧
    dictGet (parseLocCore "direction: east to west") "direction" =
      JVal.str "east → west" ∧
    dictGet (parseLocCore "direction: Actor") "direction" = JVal.str "Ac→r" := by
  refine ⟨?_, by decide, by decide, by decide, by decide⟩
  have hnc : (("direction: ".toList ++ v).contains ',') = false := by
    show v.contains ',' = false
    exact hcomma
  have hsplit := splitOnChar_no_sep ',' ("direction: ".toList ++ v)
    (contains_false_forall _ ',' hnc)
  obtain ⟨c, t, hr⟩ : ∃ c t, v.reverse = c :: t := by
    cases hv : v.reverse with
    | nil =>
        exact absurd (by simpa using congrArg List.reverse hv) hne
    | cons c t => exact ⟨c, t, rfl⟩
  have hwsc : Char.isWhitespace c = false := by
    rw [hr] at h2
    exact dropWhile_fix_head_false _ c t h2
  have estrip : stripChars ("direction: ".toList ++ v) = "direction: ".toList ++ v := by
    unfold stripChars
    have e1 : ("direction: ".toList ++ v).dropWhile Char.isWhitespace =
        "direction: ".toList ++ v := by
      show List.dropWhile Char.isWhitespace ('d' :: ("irection: ".toList ++ v)) =
        'd' :: ("irection: ".toList ++ v)
      rw [List.dropWhile_cons]
      simp
    rw [e1, List.reverse_append, hr, List.cons_append, List.dropWhile_cons, hwsc]
    simp only [Bool.false_eq_true, if_false]
    rw [← List.cons_append, ← hr, ← List.reverse_append, List.reverse_reverse]
  have e0 : parseLocCore (String.mk ("direction: ".toList ++ v)) =
      segStep defaultLoc ("direction: ".toList ++ v) := by
    unfold parseLocCore
    rw [show (String.mk ("direction: ".toList ++ v)).toList =
      "direction: ".toList ++ v from rfl]
    rw [hsplit]
    simp only [List.map_cons, List.map_nil, estrip]
    rw [List.filter_cons]
    rw [show (!("direction: ".toList ++ v).isEmpty) = true from rfl]
    simp [List.foldl]
  have e1' : segStep defaultLoc ("direction: ".toList ++ v) =
      dictSet defaultLoc "direction" (directionNorm (stripChars (' ' :: v))) := rfl
  have e2 : stripChars (' ' :: v) = v := by
    unfold stripChars
    rw [show List.dropWhile Char.isWhitespace (' ' :: v) =
      List.dropWhile Char.isWhitespace v from by rw [List.dropWhile_cons]; simp]
    rw [h1, h2, List.reverse_reverse]
  rw [e0, e1', e2]
  rfl

theorem stripChars_cons_ws (c : Char) (x : List Char)
    (h : Char.isWhitespace c = true) : stripChars (c :: x) = stripChars x := by
  simp [stripChars, List.dropWhile_cons, h]

theorem stripChars_fix_append (c : Char) (t v : List Char)
    (hc : Char.isWhitespace c = false) (hne : v ≠ [])
    (h2 : v.reverse.dropWhile Char.isWhitespace = v.reverse) :
    stripChars ((c :: t) ++ v) = (c :: t) ++ v := by
  obtain ⟨cv, tv, hr⟩ : ∃ cv tv, v.reverse = cv :: tv := by
    cases hv : v.reverse with
    | nil => exact absurd (by simpa using congrArg List.reverse hv) hne
    | cons cv tv => exact ⟨cv, tv, rfl⟩
  have hwsc : Char.isWhitespace cv = false := by
    rw [hr] at h2
    exact dropWhile_fix_head_false _ cv tv h2
  unfold stripChars
  rw [List.cons_append, List.dropWhile_cons, hc]
  simp only [Bool.false_eq_true, if_false]
  rw [← List.cons_append, List.reverse_append, hr, List.cons_append,
    List.dropWhile_cons, hwsc]
  simp only [Bool.false_eq_true, if_false]
  rw [← List.cons_append, ← hr, ← List.reverse_append, List.reverse_reverse]

theorem stripChars_fix (v : List Char) (h1 : v.dropWhile Char.isWhitespace = v)
    (h2 : v.reverse.dropWhile Char.isWhitespace = v.reverse) :
    stripChars v = v := by
  unfold stripChars
  rw [h1, h2, List.reverse_reverse]

theorem splitOnChar_append_sep (sep : Char) (a b : List Char)
    (ha : ∀ c ∈ a, (c == sep) = false) :
    splitOnChar sep (a ++ sep :: b) = a :: splitOnChar sep b := by
  induction a with
  | nil => simp [splitOnChar]
  | cons c cs ih =>
      have hc : (c == sep) = false := ha c (List.mem_cons_self c cs)
      have ihr := ih fun x hx => ha x (List.mem_cons_of_mem c hx)
      simp [splitOnChar, hc, ihr]

theorem hasKey_map_set (l : Dict) (k0 : String) (v0 : JVal) (k : String) :
    hasKey (l.map (fun p => if p.1 == k0 then (k0, v0) else p)) k = hasKey l k := by
  induction l with
  | nil => rfl
  | cons p rest ih =>
      simp only [List.map_cons, hasKey_cons, ih]
      by_cases hp : p.1 == k0
      · have hp' : p.1 = k0 := by simpa using hp
        simp [hp, hp']
      · simp [hp]

theorem hasKey_dictSet_preserve (d : Dict) (k' : String) (v : JVal) (k : String)
    (h : hasKey d k = true) : hasKey (dictSet d k' v) k = true := by
  unfold dictSet
  by_cases hk : hasKey d k'
  · rw [if_pos hk, hasKey_map_set]
    exact h
  · rw [if_neg hk]
    simp only [hasKey, List.any_append] at h ⊢
    simp [h]

theorem segStep_preserves_hasKey (out : Dict) (p : List Char) (k : String)
    (h : hasKey out k = true) : hasKey (segStep out p) k = true := by
  unfold segStep
  dsimp only
  split_ifs <;> first
    | exact h
    | exact hasKey_dictSet_preserve _ _ _ _ h

theorem foldl_segStep_preserves_hasKey (ps : List (List Char)) (out : Dict)
    (k : String) (h : hasKey out k = true) :
    hasKey (ps.foldl segStep out) k = true := by
  induction ps generalizing out with
  | nil => exact h
  | cons p rest ih => exact ih _ (segStep_preserves_hasKey out p k h)

theorem parseLocCore_hasKey (t : String) (k : String)
    (h : hasKey defaultLoc k = true) : hasKey (parseLocCore t) k = true := by
  unfold parseLocCore
  exact foldl_segStep_preserves_hasKey _ _ _ h

/-- C8: the location parser is total in the model (every fallible internal
operation is an explicit Option) and safe: every input, including falsy
and non-string values, yields a record carrying all four standard fields;
a non-string input yields the all-None record; and a failed distance
extraction degrades only that field to None while the rest of the record
(here a parsed section) is still produced. -/
theorem C8_parser_never_raises :
    (∀ j : JVal,
      hasKey (parse_location_string j) "section" = true ∧
      hasKey (parse_location_string j) "row" = true ∧
      hasKey (parse_location_string j) "position_from_N" = true ∧
      hasKey (parse_location_string j) "direction" = true) ∧
    (∀ j : JVal, (∀ t : String, j ≠ JVal.str t) → parse_location_string j = defaultLoc) ∧
    (∀ v : List Char, v.contains ',' = false → extractFirstFloat v = none →
      v ≠ [] → v.dropWhile Char.isWhitespace = v →
      v.reverse.dropWhile Char.isWhitespace = v.reverse →
      parseLocCore (String.mk ("section: Greenhouse, position: ".toList ++ v)) =
        [("section", JVal.str "Greenhouse"), ("row", JVal.null),
         ("position_from_N", JVal.null), ("direction", JVal.null)]) := by
  refine ⟨?_, ?_, ?_⟩
  · intro j
    unfold parse_location_string
    by_cases hf : jFalsy j = true
    · simp [hf]
      decide
    · have hf' : jFalsy j = false := by simpa using hf
      cases j <;> simp [hf'] <;>
        first
        | decide
        | exact ⟨parseLocCore_hasKey _ _ (by decide), parseLocCore_hasKey _ _ (by decide),
            parseLocCore_hasKey _ _ (by decide), parseLocCore_hasKey _ _ (by decide)⟩
  · intro j hj
    cases j
    case str t => exact absurd rfl (hj t)
    all_goals unfold parse_location_string
    all_goals split_ifs <;> rfl
  · intro v hcomma hext hne h1 h2
    have hsplit : splitOnChar ','
        ("section: Greenhouse".toList ++ ',' :: (" position: ".toList ++ v)) =
        ["section: Greenhouse".toList, " position: ".toList ++ v] := by
      rw [splitOnChar_append_sep ',' _ _ (by decide)]
      rw [splitOnChar_no_sep ',' _ ?_]
      intro c hc
      rcases List.mem_append.mp hc with hcl | hcr
      · have hall : ∀ x ∈ " position: ".toList, (x == ',') = false := by decide
        exact hall c hcl
      · exact contains_false_forall v ',' hcomma c hcr
    have estrip2 : stripChars (" position: ".toList ++ v) =
        "position: ".toList ++ v := by
      rw [show (" position: ".toList ++ v) = ' ' :: ("position: ".toList ++ v) from rfl]
      rw [stripChars_cons_ws ' ' _ (by decide)]
      exact stripChars_fix_append 'p' _ v (by decide) hne h2
    have e0 : parseLocCore (String.mk ("section: Greenhouse, position: ".toList ++ v)) =
        segStep (segStep defaultLoc ("section: Greenhouse".toList))
          ("position: ".toList ++ v) := by
      unfold parseLocCore
      rw [show (String.mk ("section: Greenhouse, position: ".toList ++ v)).toList =
        "section: Greenhouse".toList ++ ',' :: (" position: ".toList ++ v) from rfl]
      rw [hsplit]
      simp only [List.map_cons, List.map_nil, estrip2]
      rw [show stripChars ("section: Greenhouse".toList) =
        "section: Greenhouse".toList from by decide]
      rw [List.filter_cons, List.filter_cons]
      rw [show (!("section: Greenhouse".toList).isEmpty) = true from rfl]
      rw [show (!("position: ".toList ++ v).isEmpty) = true from rfl]
      simp [List.foldl]
    have hseg1 : segStep defaultLoc ("section: Greenhouse".toList) =
        [("section", JVal.str "Greenhouse"), ("row", JVal.null),
         ("position_from_N", JVal.null), ("direction", JVal.null)] := by
      decide
    have e1' : segStep [("section", JVal.str "Greenhouse"), ("row", JVal.null),
        ("position_from_N", JVal.null), ("direction", JVal.null)]
        ("position: ".toList ++ v) =
        dictSet [("section", JVal.str "Greenhouse"), ("row", JVal.null),
          ("position_from_N", JVal.null), ("direction", JVal.null)]
          "position_from_N" (positionNorm (stripChars (' ' :: v))) := rfl
    have e2 : stripChars (' ' :: v) = v := by
      rw [stripChars_cons_ws ' ' v (by decide)]
      exact stripChars_fix v h1 h2
    rw [e0, hseg1, e1', e2]
    simp only [positionNorm, hext]
    decide

/-- Witness for C8: the parser output for a dict input and for an
unparseable distance value. -/
theorem C8_witness :
    hasKey (parse_location_string (JVal.num 3)) "direction" = true ∧
    parse_location_string (JVal.list [JVal.num 1]) = defaultLoc ∧
    parseLocCore (String.mk ("section: Greenhouse, position: ".toList ++
        "unknown".toList)) =
      [("section", JVal.str "Greenhouse"), ("row", JVal.null),
       ("position_from_N", JVal.null), ("direction", JVal.null)] := by
  refine ⟨(C8_parser_never_raises.1 (JVal.num 3)).2.2.2, ?_, ?_⟩
  · exact C8_parser_never_raises.2.1 (JVal.list [JVal.num 1])
      (fun t h => JVal.noConfusion h)
  · exact C8_parser_never_raises.2.2 "unknown".toList (by decide) (by decide)
      (by decide) (by decide) (by decide)

/-- Witness for C7 at a concrete comma-free direction value: a single
cardinal name is stored as-is. -/
theorem C7_witness :
    dictGet (parseLocCore (String.mk ("direction: ".toList ++ "veer north".toList)))
      "direction" = JVal.str "veer north" := by
  have h := (C7_direction_amended "veer north".toList (by decide) (by decide)
    (by decide) (by decide)).1
  rw [h]
  decide

/-- C4 amended: classification is the first match over the fixed ordered
tag list, whose tags are not pairwise disjoint (temperature is contained
in ambient_temperature); consequently a discriminator routes as a
canopy-measurement update exactly when it contains temperature and none
of the eight tags tested before it. -/
theorem C4_first_match_amended (s : String) :
    classify s = (tagList.find? (fun t => strContains s t)).bind catOfTag ∧
    (classify s = some Category.temperature ↔
      (strContains s "temperature" = true ∧ strContains s "gps" = false ∧
       strContains s "ambient_temperature" = false ∧ strContains s "ndvi" = false ∧
       strContains s "area" = false ∧ strContains s "location" = false ∧
       strContains s "biomass" = false ∧ strContains s "light_state" = false ∧
       strContains s "crop_type" = false)) := by
  cases h1 : strContains s "gps"
  case true =>
    constructor
    · simp [classify, tagList, List.find?_cons, h1, catOfTag]
    · simp [classify, h1]
  case false =>
    cases h2 : strContains s "ambient_temperature"
    case true =>
      constructor
      · simp [classify, tagList, List.find?_cons, h1, h2, catOfTag]
      · simp [classify, h1, h2]
    case false =>
      cases h3 : strContains s "ndvi"
      case true =>
        constructor
        · simp [classify, tagList, List.find?_cons, h1, h2, h3, catOfTag]
        · simp [classify, h1, h2, h3]
      case false =>
        cases h4 : strContains s "area"
        case true =>
          constructor
          · simp [classify, tagList, List.find?_cons, h1, h2, h3, h4, catOfTag]
          · simp [classify, h1, h2, h3, h4]
        case false =>
          cases h5 : strContains s "location"
          case true =>
            constructor
            · simp [classify, tagList, List.find?_cons, h1, h2, h3, h4, h5, catOfTag]
            · simp [classify, h1, h2, h3, h4, h5]
          case false =>
            cases h6 : strContains s "biomass"
            case true =>
              constructor
              · simp [classify, tagList, List.find?_cons, h1, h2, h3, h4, h5, h6, catOfTag]
              · simp [classify, h1, h2, h3, h4, h5, h6]
            case false =>
              cases h7 : strContains s "light_state"
              case true =>
                constructor
                · simp [classify, tagList, List.find?_cons, h1, h2, h3, h4, h5, h6, h7, catOfTag]
                · simp [classify, h1, h2, h3, h4, h5, h6, h7]
              case false =>
                cases h8 : strContains s "crop_type"
                case true =>
                  constructor
                  · simp [classify, tagList, List.find?_cons, h1, h2, h3, h4, h5, h6, h7, h8, catOfTag]
                  · simp [classify, h1, h2, h3, h4, h5, h6, h7, h8]
                case false =>
                  cases h9 : strContains s "temperature"
                  case true =>
                    constructor
                    · simp [classify, tagList, List.find?_cons, h1, h2, h3, h4, h5, h6, h7, h8, h9, catOfTag]
                    · simp [classify, h1, h2, h3, h4, h5, h6, h7, h8, h9]
                  case false =>
                    cases h10 : strContains s "relative_humidity"
                    case true =>
                      constructor
                      · simp [classify, tagList, List.find?_cons, h1, h2, h3, h4, h5, h6, h7, h8, h9, h10, catOfTag]
                      · simp [classify, h1, h2, h3, h4, h5, h6, h7, h8, h9, h10]
                    case false =>
                      cases h11 : strContains s "absolute_humidity"
                      case true =>
                        constructor
                        · simp [classify, tagList, List.find?_cons, h1, h2, h3, h4, h5, h6, h7, h8, h9, h10, h11, catOfTag]
                        · simp [classify, h1, h2, h3, h4, h5, h6, h7, h8, h9, h10, h11]
                      case false =>
                        cases h12 : strContains s "dew_point"
                        case true =>
                          constructor
                          · simp [classify, tagList, List.find?_cons, h1, h2, h3, h4, h5, h6, h7, h8, h9, h10, h11, h12, catOfTag]
                          · simp [classify, h1, h2, h3, h4, h5, h6, h7, h8, h9, h10, h11, h12]
                        case false =>
                          cases h13 : strContains s "tf_position"
                          case true =>
                            constructor
                            · simp [classify, tagList, List.find?_cons, h1, h2, h3, h4, h5, h6, h7, h8, h9, h10, h11, h12, h13, catOfTag]
                            · simp [classify, h1, h2, h3, h4, h5, h6, h7, h8, h9, h10, h11, h12, h13]
                          case false =>
                            constructor
                            · simp [classify, tagList, List.find?_cons, h1, h2, h3, h4, h5, h6, h7, h8, h9, h10, h11, h12, h13, catOfTag]
                            · simp [classify, h1, h2, h3, h4, h5, h6, h7, h8, h9, h10, h11, h12, h13]

